import Mathlib

/-!
Verification of the motion-data normalization and biomechanics pipeline of a
baseball 3D motion visualizer.  The source consists of a parser module
(`parseHawkEye.ts`) and a visualizer component (`HawkEyeVisualizer3D.tsx`).
JavaScript numbers are modelled as rationals (`ℚ`); transcendental library
primitives (square root, atan2, acos, radian conversion) are abstracted as
parameters, since every verified property is independent of their values.
-/

namespace BB3D

/-! ### String helpers (JS toLowerCase / includes) -/

/-- Lowercases every character, mirroring `String.prototype.toLowerCase`
for the ASCII role labels this pipeline receives. -/
def strLower (s : String) : String := ⟨s.data.map Char.toLower⟩

/-- Scans a character list for an occurrence of `needle` as a prefix of any
suffix. -/
def containsSubAux (needle : List Char) : List Char → Bool
  | [] => needle.isEmpty
  | c :: rest => needle.isPrefixOf (c :: rest) || containsSubAux needle rest

/-- Substring containment, mirroring `String.prototype.includes`:
`strContainsSub hay needle` is true when `needle` occurs inside `hay`. -/
def strContainsSub (hay needle : String) : Bool :=
  containsSubAux needle.data hay.data

/-! ### Role normalization (parseHawkEye.ts, `normalizeRole`, lines 37-42)

The source reads `(raw?.name ?? raw ?? "").toString().toLowerCase()`; we embed
the function on the resulting free-text label string.  Note the final line of
the source is `return s || "unknown"`: a non-empty unmatched label is returned
lowercased, and `"unknown"` is produced only for the empty string. -/

def normalizeRole (raw : String) : String :=
  let s := strLower raw
  if strContainsSub s "pitch" then "pitcher"
  else if strContainsSub s "bat" || strContainsSub s "hit" then "hitter"
  else if s = "" then "unknown" else s

/-! ### Angle wrapping (HawkEyeVisualizer3D.tsx, `wrap180` / `unwrapToPrev`,
lines 96-107)

`wrap180` is the pair of `while` loops bringing a degree value into
`[-180, 180]`; `unwrapToPrev` shifts the new value by multiples of 360 toward
the previous one and then — in the source — re-applies `wrap180` to the
result.  The loops are embedded as well-founded recursion; `wrapSteps` counts
the remaining iterations. -/

/-- Iteration count of the two `wrap180` loops on input `d`. -/
def wrapSteps (d : ℚ) : ℕ :=
  (⌈(d - 180) / 360⌉).toNat + (⌈(-180 - d) / 360⌉).toNat

lemma ceilNonpos {a : ℚ} (h : a ≤ 0) : ⌈a⌉ ≤ 0 := by
  rw [Int.ceil_le]
  exact_mod_cast h

lemma wrapSteps_sub {d : ℚ} (h : 180 < d) :
    wrapSteps (d - 360) + 1 = wrapSteps d := by
  have h1 : (0 : ℚ) < (d - 180) / 360 := div_pos (by linarith) (by norm_num)
  have c1 : 1 ≤ ⌈(d - 180) / 360⌉ := Int.ceil_pos.mpr h1
  have e1 : (d - 360 - 180) / 360 = (d - 180) / 360 - 1 := by ring
  have hz : (-180 - d) / 360 ≤ 0 := by
    apply div_nonpos_of_nonpos_of_nonneg <;> linarith
  have hz2 : (-180 - (d - 360)) / 360 ≤ 0 := by
    apply div_nonpos_of_nonpos_of_nonneg <;> linarith
  have z1 : (⌈(-180 - d) / 360⌉).toNat = 0 :=
    Int.toNat_eq_zero.mpr (ceilNonpos hz)
  have z2 : (⌈(-180 - (d - 360)) / 360⌉).toNat = 0 :=
    Int.toNat_eq_zero.mpr (ceilNonpos hz2)
  unfold wrapSteps
  rw [e1, Int.ceil_sub_one, z1, z2]
  omega

lemma wrapSteps_add {d : ℚ} (h : d < -180) :
    wrapSteps (d + 360) + 1 = wrapSteps d := by
  have h1 : (0 : ℚ) < (-180 - d) / 360 := div_pos (by linarith) (by norm_num)
  have c1 : 1 ≤ ⌈(-180 - d) / 360⌉ := Int.ceil_pos.mpr h1
  have e1 : (-180 - (d + 360)) / 360 = (-180 - d) / 360 - 1 := by ring
  have e2 : (d + 360 - 180) / 360 = (d - 180) / 360 + 1 := by ring
  have hz : (d - 180) / 360 ≤ 0 := by
    apply div_nonpos_of_nonpos_of_nonneg <;> linarith
  have hz2 : (d - 180) / 360 + 1 ≤ 0 := by
    have : (d - 180) / 360 < -1 := by
      rw [div_lt_iff₀ (by norm_num : (0:ℚ) < 360)]
      linarith
    linarith
  have z1 : (⌈(d - 180) / 360⌉).toNat = 0 :=
    Int.toNat_eq_zero.mpr (ceilNonpos hz)
  have z2 : (⌈(d + 360 - 180) / 360⌉).toNat = 0 := by
    rw [e2]
    exact Int.toNat_eq_zero.mpr (ceilNonpos hz2)
  unfold wrapSteps
  rw [e1, Int.ceil_sub_one, z1, z2]
  omega

/-- Embeds `wrap180` (lines 96-101): repeatedly subtract or add 360 while the
value is above 180 or below -180.  The `isFinite` guard of the source is
vacuous over `ℚ`. -/
def wrap180 (d : ℚ) : ℚ :=
  if h : 180 < d then wrap180 (d - 360)
  else if h2 : d < -180 then wrap180 (d + 360)
  else d
termination_by wrapSteps d
decreasing_by
  · have := wrapSteps_sub h; omega
  · have := wrapSteps_add h2; omega

/-- Embeds the first `while` loop of `unwrapToPrev` (line 104):
add 360 to `cand` while `prevDeg - cand > 180`. -/
def unwrapUp (cand prev : ℚ) : ℚ :=
  if h : 180 < prev - cand then unwrapUp (cand + 360) prev
  else cand
termination_by (⌈(prev - cand - 180) / 360⌉).toNat
decreasing_by
  · have h1 : (0 : ℚ) < (prev - cand - 180) / 360 := div_pos (by linarith) (by norm_num)
    have c1 : 1 ≤ ⌈(prev - cand - 180) / 360⌉ := Int.ceil_pos.mpr h1
    have e1 : (prev - (cand + 360) - 180) / 360 = (prev - cand - 180) / 360 - 1 := by
      ring
    rw [e1, Int.ceil_sub_one]
    omega

/-- Embeds the second `while` loop of `unwrapToPrev` (line 105):
subtract 360 from `cand` while `cand - prevDeg > 180`. -/
def unwrapDown (cand prev : ℚ) : ℚ :=
  if h : 180 < cand - prev then unwrapDown (cand - 360) prev
  else cand
termination_by (⌈(cand - prev - 180) / 360⌉).toNat
decreasing_by
  · have h1 : (0 : ℚ) < (cand - prev - 180) / 360 := div_pos (by linarith) (by norm_num)
    have c1 : 1 ≤ ⌈(cand - prev - 180) / 360⌉ := Int.ceil_pos.mpr h1
    have e1 : (cand - 360 - prev - 180) / 360 = (cand - prev - 180) / 360 - 1 := by
      ring
    rw [e1, Int.ceil_sub_one]
    omega

/-- Embeds `unwrapToPrev` (lines 102-107).  The source ends with
`return wrap180(cand)`, re-wrapping the shifted candidate into `[-180,180]`. -/
def unwrapToPrev (newDeg prevDeg : ℚ) : ℚ :=
  wrap180 (unwrapDown (unwrapUp newDeg prevDeg) prevDeg)

/-! ### Basic facts about the wrap functions -/

lemma wrap180_of_bounds {d : ℚ} (h1 : ¬180 < d) (h2 : ¬d < -180) :
    wrap180 d = d := by
  rw [wrap180]
  simp [h1, h2]

lemma wrap180_mem_aux : ∀ n (d : ℚ), wrapSteps d ≤ n →
    -180 ≤ wrap180 d ∧ wrap180 d ≤ 180 := by
  intro n
  induction n with
  | zero =>
    intro d hd
    have h1 : ¬180 < d := by
      intro h
      have := wrapSteps_sub h
      omega
    have h2 : ¬d < -180 := by
      intro h
      have := wrapSteps_add h
      omega
    rw [wrap180_of_bounds h1 h2]
    constructor <;> linarith [not_lt.mp h1, not_lt.mp h2]
  | succ n ih =>
    intro d hd
    by_cases h1 : 180 < d
    · have hs := wrapSteps_sub h1
      have : wrap180 d = wrap180 (d - 360) := by
        rw [wrap180]; simp [h1]
      rw [this]
      exact ih _ (by omega)
    · by_cases h2 : d < -180
      · have hs := wrapSteps_add h2
        have : wrap180 d = wrap180 (d + 360) := by
          rw [wrap180]; simp [h1, h2]
        rw [this]
        exact ih _ (by omega)
      · rw [wrap180_of_bounds h1 h2]
        constructor <;> linarith [not_lt.mp h1, not_lt.mp h2]

lemma wrap180_mem (d : ℚ) : -180 ≤ wrap180 d ∧ wrap180 d ≤ 180 :=
  wrap180_mem_aux (wrapSteps d) d le_rfl

lemma wrap180_idem (d : ℚ) : wrap180 (wrap180 d) = wrap180 d := by
  obtain ⟨h1, h2⟩ := wrap180_mem d
  exact wrap180_of_bounds (by linarith) (by linarith)

lemma unwrapToPrev_self {r : ℚ} (h1 : -180 ≤ r) (h2 : r ≤ 180) :
    unwrapToPrev r r = r := by
  unfold unwrapToPrev
  rw [unwrapUp, unwrapDown]
  simp only [sub_self]
  norm_num
  exact wrap180_of_bounds (by linarith) (by linarith)

/-! ### JSON value model (for parseHawkEye.ts)

The raw export is an arbitrarily shaped JSON document.  JS numbers are split
into finite rationals and a single `nonfin` constructor standing for `NaN`
and the infinities, which is exactly the distinction `Number.isFinite`
draws. -/

inductive JVal where
  | fnum (q : ℚ)
  | nonfin
  | str (s : String)
  | jbool (b : Bool)
  | null
  | arr (xs : List JVal)
  | obj (fields : List (String × JVal))

/-- Property access `o?.k`: a lookup in an object, `none` for any other
shape. -/
def jGet : JVal → String → Option JVal
  | .obj fs, k => fs.lookup k
  | _, _ => none

/-- Chained optional property access along a path of keys. -/
def jGetPath (v : JVal) : List String → Option JVal
  | [] => some v
  | k :: ks =>
    match jGet v k with
    | some w => jGetPath w ks
    | none => none

/-- Embeds `Number.isFinite` on a JSON value: true exactly for the finite
numbers. -/
def isFiniteNum : JVal → Bool
  | .fnum _ => true
  | _ => false

/-- Embeds the joint-value guard of `buildFramesFromPerson` (line 63):
`Array.isArray(v) && v.length === 3 && v.every(Number.isFinite)`. -/
def isFiniteTriple : JVal → Bool
  | .arr [a, b, c] => isFiniteNum a && isFiniteNum b && isFiniteNum c
  | _ => false

/-- Embeds `num` (parseHawkEye.ts, lines 28-31): `Number(v)` followed by a
finiteness check.  String-to-number and array coercions of `Number` are not
modelled (no claim depends on them); booleans and `null` coerce as in JS. -/
def jNum : JVal → Option ℚ
  | .fnum q => some q
  | .jbool b => some (if b then 1 else 0)
  | .null => some 0
  | _ => none

/-- One canonical frame as built by the parser: a time stamp and the raw
joint dictionary that survived the finite-triple filter. -/
structure EFrame where
  time : ℚ
  joints : List (String × JVal)

/-- One subject's track as built by the parser.  The display-identity fields
(`name`, `personId`) and the constant metric bags, which no claim mentions,
are not modelled. -/
structure ETrack where
  role : String
  fps : ℚ
  frames : List EFrame

/-- Embeds `extractFPS` (parseHawkEye.ts, lines 44-51): person-level sampling
rate, else document-level, else 300. -/
def extractFPS (root person : JVal) : ℚ :=
  ((((jGetPath person ["system", "targetFrameRate"]).bind jNum).orElse
    (fun _ => (jGetPath root ["samples", "system", "targetFrameRate"]).bind jNum)).orElse
    (fun _ => (jGetPath root ["system", "targetFrameRate"]).bind jNum)).getD 300

/-- Embeds the per-frame entry filter of `buildFramesFromPerson`
(lines 58-67): keep exactly the entries whose value is a length-3 array of
finite numbers.  A frame entry that is itself an array is enumerated by
index, as `Object.entries` does in JS. -/
def frameEntries : JVal → List (String × JVal)
  | .obj fields => fields.filter (fun kv => isFiniteTriple kv.2)
  | .arr xs =>
      (xs.enum.map (fun p => (toString p.1, p.2))).filter
        (fun kv => isFiniteTriple kv.2)
  | _ => []

/-- Embeds `buildFramesFromPerson` (parseHawkEye.ts, lines 53-71): each entry
of the person's `joints` array becomes one frame with `time = i / fps`. -/
def buildFramesFromPerson (person : JVal) (fps : ℚ) : List EFrame :=
  match jGet person "joints" with
  | some (.arr jointsArr) =>
      jointsArr.enum.map (fun p =>
        { time := (p.1 : ℚ) / fps, joints := frameEntries p.2 })
  | _ => []

/-- Embeds the label resolution inside `normalizeRole` (line 38):
`(raw?.name ?? raw ?? "").toString()`.  Numeric `toString` formatting is not
modelled (no claim depends on it). -/
def jToStr : JVal → String
  | .str s => s
  | .jbool true => "true"
  | .jbool false => "false"
  | .null => "null"
  | _ => ""

/-- Resolves the free-text role label of a person record, following
`normalizeRole`'s argument handling for the `person?.role` value. -/
def roleLabel (person : JVal) : String :=
  match jGet person "role" with
  | none => ""
  | some .null => ""
  | some raw =>
    match jGet raw "name" with
    | some .null => jToStr raw
    | none => jToStr raw
    | some v => jToStr v

/-- Embeds `parseHawkEyeJson` (parseHawkEye.ts, lines 195-234): one track per
person under `samples.people`, skipping persons whose built frame list is
empty (`if (!frames.length) continue`). -/
def parseHawkEyeJson (root : JVal) : List ETrack :=
  match jGetPath root ["samples", "people"] with
  | some (.arr people) =>
      people.filterMap (fun person =>
        let fps := extractFPS root person
        let frames := buildFramesFromPerson person fps
        if frames.isEmpty then none
        else some { role := normalizeRole (roleLabel person), fps := fps,
                    frames := frames })
  | _ => []

/-! ### Parser lemmas -/

lemma parse_mem_spec {root : JVal} {t : ETrack}
    (ht : t ∈ parseHawkEyeJson root) :
    ∃ person,
      (buildFramesFromPerson person (extractFPS root person)).isEmpty = false ∧
      t.frames = buildFramesFromPerson person (extractFPS root person) := by
  unfold parseHawkEyeJson at ht
  cases hpp : jGetPath root ["samples", "people"] with
  | none => rw [hpp] at ht; simp at ht
  | some v =>
    rw [hpp] at ht
    cases v
    case arr people =>
      rw [List.mem_filterMap] at ht
      obtain ⟨person, hmem, hsome⟩ := ht
      have hsome2 :
          (if (buildFramesFromPerson person (extractFPS root person)).isEmpty
            then none
            else some ({ role := normalizeRole (roleLabel person),
                         fps := extractFPS root person,
                         frames :=
                           buildFramesFromPerson person
                             (extractFPS root person) } : ETrack)) = some t :=
        hsome
      by_cases he :
          (buildFramesFromPerson person (extractFPS root person)).isEmpty
      · rw [if_pos he] at hsome2
        simp at hsome2
      · rw [if_neg he] at hsome2
        refine ⟨person, by simpa using he, ?_⟩
        rw [← Option.some.inj hsome2]
    all_goals simp at ht

lemma frameEntries_finite {J : JVal} {kv : String × JVal}
    (h : kv ∈ frameEntries J) : isFiniteTriple kv.2 = true := by
  cases J
  case obj fields =>
    unfold frameEntries at h
    exact (List.mem_filter.mp h).2
  case arr xs =>
    unfold frameEntries at h
    exact (List.mem_filter.mp h).2
  all_goals simp [frameEntries] at h

lemma build_frames_joints_finite {person : JVal} {fps : ℚ} {fr : EFrame}
    (hf : fr ∈ buildFramesFromPerson person fps) {kv : String × JVal}
    (hkv : kv ∈ fr.joints) : isFiniteTriple kv.2 = true := by
  unfold buildFramesFromPerson at hf
  cases hj : jGet person "joints" with
  | none => rw [hj] at hf; simp at hf
  | some v =>
    rw [hj] at hf
    cases v
    case arr xs =>
      rw [List.mem_map] at hf
      obtain ⟨p, hp, rfl⟩ := hf
      exact frameEntries_finite hkv
    all_goals simp at hf

/-! ### Claim C6 -/

/-- Claim C6: for every RawExport input, every Track in the output of
parseHawkEyeJson has a non-empty frames array: a person record whose joint
array yields zero frames is skipped entirely and never emitted as an empty
track. -/
theorem parse_tracks_frames_nonempty (root : JVal) (t : ETrack)
    (ht : t ∈ parseHawkEyeJson root) : t.frames ≠ [] := by
  obtain ⟨person, he, hfr⟩ := parse_mem_spec ht
  rw [hfr]
  intro hnil
  rw [hnil] at he
  simp at he

/-- A one-person, one-frame document exercising C6 concretely. -/
def tripleW : JVal := .arr [.fnum 1, .fnum 2, .fnum 3]

/-- A person record with a single usable frame. -/
def personW : JVal := .obj [("joints", .arr [.obj [("head", tripleW)]])]

/-- A document holding `personW` under `samples.people`. -/
def rootW : JVal := .obj [("samples", .obj [("people", .arr [personW])])]

/-- The track the parser builds from `rootW`. -/
def trackW : ETrack := ⟨"unknown", 300, [⟨0, [("head", tripleW)]⟩]⟩

lemma parse_rootW : parseHawkEyeJson rootW = [trackW] := by
  simp [parseHawkEyeJson, rootW, personW, trackW, tripleW, jGetPath, jGet,
    List.lookup, extractFPS, jNum, buildFramesFromPerson, frameEntries,
    isFiniteTriple, isFiniteNum, roleLabel, jToStr, normalizeRole, strLower,
    strContainsSub, containsSubAux, List.filterMap, List.enum,
    List.enumFrom]

lemma trackW_mem : trackW ∈ parseHawkEyeJson rootW := by
  rw [parse_rootW]
  exact List.mem_singleton.mpr rfl

/-- Witness for C6 at the concrete document `rootW`. -/
theorem parse_tracks_frames_nonempty_witness : trackW.frames ≠ [] :=
  parse_tracks_frames_nonempty rootW trackW trackW_mem

/-! ### Claim C10 -/

/-- Claim C10: every joint value stored in every frame of every track
returned by parseHawkEyeJson is a 3-element array of finite numbers: the
frame builder drops any raw joint entry that is not a length-3 array of
finite numbers, so NaN, Infinity and malformed tuples never cross the parser
boundary into a Track. -/
theorem parse_joint_values_finite (root : JVal) (t : ETrack) (fr : EFrame)
    (kv : String × JVal) (ht : t ∈ parseHawkEyeJson root)
    (hf : fr ∈ t.frames) (hkv : kv ∈ fr.joints) :
    isFiniteTriple kv.2 = true := by
  obtain ⟨person, he, hfr⟩ := parse_mem_spec ht
  rw [hfr] at hf
  exact build_frames_joints_finite hf hkv

/-- Witness for C10 at the concrete document `rootW`. -/
theorem parse_joint_values_finite_witness :
    isFiniteTriple ("head", tripleW).2 = true :=
  parse_joint_values_finite rootW trackW ⟨0, [("head", tripleW)]⟩
    ("head", tripleW) trackW_mem (List.mem_singleton.mpr rfl)
    (List.mem_singleton.mpr rfl)

/-! ### Claim C1 -/

/-- Counterexample to claim C1 as stated: the non-empty label "Catcher"
matches none of the role substrings, yet `normalizeRole` returns the
lowercased label "catcher", not "unknown" (the source ends in
`return s || "unknown"`). -/
theorem role_unknown_counterexample :
    normalizeRole "Catcher" = "catcher" ∧ normalizeRole "Catcher" ≠ "unknown" := by
  constructor
  · decide
  · decide

/-- Claim C1, amended: lowercased labels containing "pitch" normalize to
"pitcher"; otherwise labels containing "bat" or "hit" normalize to "hitter";
any other label normalizes to its lowercased self when non-empty, and to
"unknown" only when the label is empty. -/
theorem role_normalization_amended (s : String) :
    (strContainsSub (strLower s) "pitch" = true → normalizeRole s = "pitcher") ∧
    (strContainsSub (strLower s) "pitch" = false →
      (strContainsSub (strLower s) "bat" || strContainsSub (strLower s) "hit") = true →
      normalizeRole s = "hitter") ∧
    (strContainsSub (strLower s) "pitch" = false →
      (strContainsSub (strLower s) "bat" || strContainsSub (strLower s) "hit") = false →
      normalizeRole s = if strLower s = "" then "unknown" else strLower s) := by
  unfold normalizeRole
  refine ⟨fun h1 => ?_, fun h1 h2 => ?_, fun h1 h2 => ?_⟩
  · simp [h1]
  · simp [h1, h2]
  · simp [h1, h2]

/-- Witness for the amended C1: the unmatched non-empty label "Catcher" maps
to its lowercased self. -/
theorem role_normalization_amended_witness :
    normalizeRole "Catcher" =
      if strLower "Catcher" = "" then "unknown" else strLower "Catcher" :=
  (role_normalization_amended "Catcher").2.2 (by decide) (by decide)

/-! ### Vector and frame model for the visualizer component

Joint positions are 3-tuples of rationals; a frame is a time stamp plus a
joint dictionary, matching the `{ time, joints }` records the visualizer
receives. -/

/-- A 3D position with rational components. -/
abbrev V3 := ℚ × ℚ × ℚ

/-- Componentwise vector sum. -/
def vadd (a b : V3) : V3 := (a.1 + b.1, a.2.1 + b.2.1, a.2.2 + b.2.2)

/-- Componentwise vector difference. -/
def vsub (a b : V3) : V3 := (a.1 - b.1, a.2.1 - b.2.1, a.2.2 - b.2.2)

/-- Scalar multiple of a vector. -/
def vscale (c : ℚ) (a : V3) : V3 := (c * a.1, c * a.2.1, c * a.2.2)

/-- Dot product. -/
def vdot (a b : V3) : ℚ := a.1 * b.1 + a.2.1 * b.2.1 + a.2.2 * b.2.2

/-- Squared length. -/
def vlensq (a : V3) : ℚ := vdot a a

/-- One visualizer frame: time stamp and joint dictionary. -/
structure VFrame where
  time : ℚ
  joints : List (String × V3)
deriving DecidableEq

/-- JS `a || b` on two optional joint positions (joint arrays are always
truthy, so `||` is the first present value). -/
def jor (a b : Option V3) : Option V3 :=
  match a with
  | some v => some v
  | none => b

/-! ### Claim C7: display smoother (`frameJoints`, lines 839-857)

The source iterates the raw joints of the displayed frame; a joint with a
previously stored smoothed value is blended
(`pv.multiplyScalar(1 - SMOOTH_ALPHA).addScaledVector(cv, SMOOTH_ALPHA)`),
a new joint is seeded with its raw position.  The subsequent overwrite of the
previous-joint map only affects later renders and is not part of the claim. -/

/-- Embeds `SMOOTH_ALPHA` (line 94). -/
def SMOOTH_ALPHA : ℚ := 35 / 100

/-- Value produced for one joint of the displayed frame (lines 843-851). -/
def smoothJoint (prevMap : List (String × V3)) (k : String) (cv : V3) : V3 :=
  match prevMap.lookup k with
  | some pv => vadd (vscale (1 - SMOOTH_ALPHA) pv) (vscale SMOOTH_ALPHA cv)
  | none => cv

/-- Embeds the display smoother `frameJoints` (lines 839-857). -/
def frameJoints (prevMap rawJ : List (String × V3)) : List (String × V3) :=
  rawJ.map (fun kp => (kp.1, smoothJoint prevMap kp.1 kp.2))

lemma lookup_map_keyfun {β γ : Type} (f : String → β → γ)
    (l : List (String × β)) (k : String) :
    (l.map (fun kp => (kp.1, f kp.1 kp.2))).lookup k = (l.lookup k).map (f k) := by
  induction l with
  | nil => rfl
  | cons hd tl ih =>
    by_cases hk : k = hd.1
    · simp [List.lookup, hk]
    · have hbeq : (k == hd.1) = false := beq_eq_false_iff_ne.mpr hk
      simp [List.lookup, hbeq, ih]

/-- Claim C7: for every joint of the displayed frame with a previously
stored smoothed position, the display smoother produces componentwise
`previous * (1 - 0.35) + current * 0.35`; a joint with no previous smoothed
value passes through unchanged as the seed. -/
theorem display_smoother_blend (prevMap rawJ : List (String × V3))
    (k : String) (p : V3) (hk : rawJ.lookup k = some p) :
    (∀ pv : V3, prevMap.lookup k = some pv →
       (frameJoints prevMap rawJ).lookup k =
         some (vadd (vscale (1 - SMOOTH_ALPHA) pv) (vscale SMOOTH_ALPHA p))) ∧
    (prevMap.lookup k = none →
       (frameJoints prevMap rawJ).lookup k = some p) := by
  have hmap := lookup_map_keyfun (smoothJoint prevMap) rawJ k
  rw [hk] at hmap
  unfold frameJoints
  constructor
  · intro pv hpv
    rw [hmap]
    simp [smoothJoint, hpv]
  · intro hpv
    rw [hmap]
    simp [smoothJoint, hpv]

/-- Witness for C7 at a concrete two-joint frame: the tracked joint blends
65% previous / 35% current, evaluated numerically. -/
theorem display_smoother_blend_witness :
    (frameJoints [("head", ((0 : ℚ), (0 : ℚ), (0 : ℚ)))]
        [("head", ((2 : ℚ), (4 : ℚ), (6 : ℚ))), ("neck", ((1 : ℚ), (1 : ℚ), (1 : ℚ)))]).lookup "head" =
      some (7/10, 7/5, 21/10) := by
  have h :=
    (display_smoother_blend [("head", ((0 : ℚ), 0, 0))]
      [("head", ((2 : ℚ), 4, 6)), ("neck", ((1 : ℚ), 1, 1))] "head" (2, 4, 6)
      (by rfl)).1 (0, 0, 0) (by rfl)
  rw [h]
  norm_num [vadd, vscale, SMOOTH_ALPHA]

/-! ### Claim C5: hand detection (`detectHandedness`, lines 365-385)

The source accumulates, over the last quarter of the frames, the x
displacement of each wrist between consecutive frames in which it is present,
then compares the per-pair means (`rdx = rc ? rx/rc : 0`), not the raw sums. -/

/-- Accumulator of `detectHandedness`: running x-displacement sums and pair
counts for the right and left wrist. -/
structure HandAcc where
  rx : ℚ
  rc : ℕ
  lx : ℚ
  lc : ℕ
deriving DecidableEq

/-- Default frame used for in-range list indexing. -/
def defFrame : VFrame := ⟨0, []⟩

/-- Loop body of `detectHandedness` (lines 370-379) for loop index `i`. -/
def handStep (frames : List VFrame) (acc : HandAcc) (i : ℕ) : HandAcc :=
  let a := (frames.getD (i - 1) defFrame).joints
  let b := (frames.getD i defFrame).joints
  let r0 := jor (a.lookup "rWrist") (a.lookup "rightWrist")
  let r1 := jor (b.lookup "rWrist") (b.lookup "rightWrist")
  let l0 := jor (a.lookup "lWrist") (a.lookup "leftWrist")
  let l1 := jor (b.lookup "lWrist") (b.lookup "leftWrist")
  let acc1 :=
    match r0, r1 with
    | some p0, some p1 => { acc with rx := acc.rx + (p1.1 - p0.1), rc := acc.rc + 1 }
    | _, _ => acc
  match l0, l1 with
  | some p0, some p1 => { acc1 with lx := acc1.lx + (p1.1 - p0.1), lc := acc1.lc + 1 }
  | _, _ => acc1

/-- Indices visited by the accumulation loop: `start + 1 ≤ i < n` with
`start = Math.floor(n * 0.75)`. -/
def handIdxs (n : ℕ) : List ℕ :=
  (List.range n).filter (fun i => 3 * n / 4 + 1 ≤ i)

/-- Accumulated wrist displacements over the last quarter of the frames. -/
def handAcc (frames : List VFrame) : HandAcc :=
  (handIdxs frames.length).foldl (handStep frames) ⟨0, 0, 0, 0⟩

/-- Embeds `detectHandedness` (lines 365-385). -/
def detectHandedness (frames : List VFrame) : String :=
  if frames.isEmpty then "?"
  else
    let acc := handAcc frames
    let rdx : ℚ := if acc.rc = 0 then 0 else acc.rx / (acc.rc : ℚ)
    let ldx : ℚ := if acc.lc = 0 then 0 else acc.lx / (acc.lc : ℚ)
    if rdx < ldx then "R" else if ldx < rdx then "L" else "?"

/-- Key renaming that exchanges the two wrists' trajectories. -/
def swapWristKey (k : String) : String :=
  if k = "rWrist" then "lWrist"
  else if k = "lWrist" then "rWrist"
  else if k = "rightWrist" then "leftWrist"
  else if k = "leftWrist" then "rightWrist"
  else k

/-- Exchanges the two wrists' trajectories in every frame. -/
def swapWrists (frames : List VFrame) : List VFrame :=
  frames.map (fun fr =>
    { fr with joints := fr.joints.map (fun kp => (swapWristKey kp.1, kp.2)) })

/-- Mirror of the accumulator under the wrist swap. -/
def accFlip (a : HandAcc) : HandAcc := ⟨a.lx, a.lc, a.rx, a.rc⟩

/-- Result renaming under the wrist swap. -/
def handFlip (h : String) : String :=
  if h = "R" then "L" else if h = "L" then "R" else h

lemma lookup_swapped (js : List (String × V3)) {k k' : String}
    (h : ∀ k0, swapWristKey k0 = k ↔ k0 = k') :
    (js.map (fun kp => (swapWristKey kp.1, kp.2))).lookup k = js.lookup k' := by
  induction js with
  | nil => rfl
  | cons hd tl ih =>
    by_cases hk : hd.1 = k'
    · have hswap : swapWristKey hd.1 = k := (h hd.1).mpr hk
      simp [List.lookup, hswap, ← hk]
    · have h1 : (k == swapWristKey hd.1) = false := by
        rw [beq_eq_false_iff_ne]
        intro he
        exact hk ((h hd.1).mp he.symm)
      have h2 : (k' == hd.1) = false := by
        rw [beq_eq_false_iff_ne]
        exact fun he => hk he.symm
      simp [List.lookup, h1, h2, ih]

lemma swapKey_r : ∀ k0, swapWristKey k0 = "rWrist" ↔ k0 = "lWrist" := by
  intro k0
  unfold swapWristKey
  split
  · next h => simp [h]
  · split
    · next h => simp [h]
    · split
      · next h => simp [h]
      · split
        · next h => simp [h]
        · next h1 h2 h3 h4 => simp [h1, h2]

lemma swapKey_l : ∀ k0, swapWristKey k0 = "lWrist" ↔ k0 = "rWrist" := by
  intro k0
  unfold swapWristKey
  split
  · next h => simp [h]
  · split
    · next h => simp [h]
    · split
      · next h => simp [h]
      · split
        · next h => simp [h]
        · next h1 h2 h3 h4 => simp [h1, h2]

lemma swapKey_right : ∀ k0, swapWristKey k0 = "rightWrist" ↔ k0 = "leftWrist" := by
  intro k0
  unfold swapWristKey
  split
  · next h => simp [h]
  · split
    · next h => simp [h]
    · split
      · next h => simp [h]
      · split
        · next h => simp [h]
        · next h1 h2 h3 h4 => simp [h3, h4]

lemma swapKey_left : ∀ k0, swapWristKey k0 = "leftWrist" ↔ k0 = "rightWrist" := by
  intro k0
  unfold swapWristKey
  split
  · next h => simp [h]
  · split
    · next h => simp [h]
    · split
      · next h => simp [h]
      · split
        · next h => simp [h]
        · next h1 h2 h3 h4 => simp [h3, h4]

lemma lookup_swap_r (js : List (String × V3)) :
    (js.map (fun kp => (swapWristKey kp.1, kp.2))).lookup "rWrist" =
      js.lookup "lWrist" :=
  lookup_swapped js swapKey_r

lemma lookup_swap_l (js : List (String × V3)) :
    (js.map (fun kp => (swapWristKey kp.1, kp.2))).lookup "lWrist" =
      js.lookup "rWrist" :=
  lookup_swapped js swapKey_l

lemma lookup_swap_right (js : List (String × V3)) :
    (js.map (fun kp => (swapWristKey kp.1, kp.2))).lookup "rightWrist" =
      js.lookup "leftWrist" :=
  lookup_swapped js swapKey_right

lemma lookup_swap_left (js : List (String × V3)) :
    (js.map (fun kp => (swapWristKey kp.1, kp.2))).lookup "leftWrist" =
      js.lookup "rightWrist" :=
  lookup_swapped js swapKey_left

lemma swapWrists_getD (frames : List VFrame) (i : ℕ) :
    (swapWrists frames).getD i defFrame =
      { time := (frames.getD i defFrame).time,
        joints := (frames.getD i defFrame).joints.map
          (fun kp => (swapWristKey kp.1, kp.2)) } := by
  unfold swapWrists
  rw [List.getD_eq_getElem?_getD, List.getD_eq_getElem?_getD,
    List.getElem?_map]
  cases h : frames[i]? with
  | none => rfl
  | some fr => rfl

lemma handStep_swap (frames : List VFrame) (acc : HandAcc) (i : ℕ) :
    handStep (swapWrists frames) (accFlip acc) i = accFlip (handStep frames acc i) := by
  unfold handStep
  rw [swapWrists_getD, swapWrists_getD]
  dsimp only
  rw [lookup_swap_r, lookup_swap_right, lookup_swap_l, lookup_swap_left,
    lookup_swap_r, lookup_swap_right, lookup_swap_l, lookup_swap_left]
  set a := (frames.getD (i - 1) defFrame).joints
  set b := (frames.getD i defFrame).joints
  cases hl0 : jor (a.lookup "lWrist") (a.lookup "leftWrist") <;>
    cases hl1 : jor (b.lookup "lWrist") (b.lookup "leftWrist") <;>
      cases hr0 : jor (a.lookup "rWrist") (a.lookup "rightWrist") <;>
        cases hr1 : jor (b.lookup "rWrist") (b.lookup "rightWrist") <;>
          simp [accFlip]

lemma handAcc_swap (frames : List VFrame) :
    handAcc (swapWrists frames) = accFlip (handAcc frames) := by
  unfold handAcc
  have hlen : (swapWrists frames).length = frames.length := by
    unfold swapWrists; rw [List.length_map]
  rw [hlen]
  have hfold : ∀ (l : List ℕ) (acc : HandAcc),
      l.foldl (handStep (swapWrists frames)) (accFlip acc) =
        accFlip (l.foldl (handStep frames) acc) := by
    intro l
    induction l with
    | nil => intro acc; rfl
    | cons hd tl ih =>
      intro acc
      simp only [List.foldl_cons]
      rw [handStep_swap]
      exact ih _
  exact hfold (handIdxs frames.length) ⟨0, 0, 0, 0⟩

lemma detect_cases (frames : List VFrame) :
    detectHandedness frames = "R" ∨ detectHandedness frames = "L" ∨
      detectHandedness frames = "?" := by
  unfold detectHandedness
  split
  · right; right; rfl
  · dsimp only
    set acc := handAcc frames
    set rdx : ℚ := if acc.rc = 0 then 0 else acc.rx / (acc.rc : ℚ)
    set ldx : ℚ := if acc.lc = 0 then 0 else acc.lx / (acc.lc : ℚ)
    rcases lt_trichotomy rdx ldx with h | h | h
    · left
      rw [if_pos h]
    · right; right
      rw [if_neg (by rw [h]; exact lt_irrefl ldx),
        if_neg (by rw [h]; exact lt_irrefl ldx)]
    · right; left
      rw [if_neg (by linarith), if_pos h]

/-- Claim C5, amended: hand detection compares the two wrists' mean per-pair
x displacements over the last quarter of the frames (sum of consecutive
displacements where the wrist is present in both frames, divided by the
count of such pairs; 0 when never present), not the raw net sums.  Swapping
the wrists' trajectories exchanges "R" and "L" and fixes "?"; when both
wrists are observed in the same positive number of pairs the comparison
coincides with the net-displacement comparison of the original claim. -/
theorem hand_detection_amended :
    (∀ frames : List VFrame,
      detectHandedness (swapWrists frames) = handFlip (detectHandedness frames)) ∧
    (∀ frames : List VFrame, swapWrists frames = frames →
      detectHandedness frames = "?") ∧
    (∀ frames : List VFrame,
      (handAcc frames).rc = (handAcc frames).lc → (handAcc frames).rc ≠ 0 →
      (detectHandedness frames = "R" ↔ (handAcc frames).rx < (handAcc frames).lx)) := by
  have hmain : ∀ frames : List VFrame,
      detectHandedness (swapWrists frames) = handFlip (detectHandedness frames) := by
    intro frames
    unfold detectHandedness
    have hemp : (swapWrists frames).isEmpty = frames.isEmpty := by
      unfold swapWrists
      cases frames <;> rfl
    rw [hemp, handAcc_swap]
    by_cases he : frames.isEmpty
    · simp [he, handFlip]
    · simp only [he, if_false]
      set acc := handAcc frames
      set rdx : ℚ := if acc.rc = 0 then 0 else acc.rx / (acc.rc : ℚ) with hrdx
      set ldx : ℚ := if acc.lc = 0 then 0 else acc.lx / (acc.lc : ℚ) with hldx
      have h1 : (if (accFlip acc).rc = 0 then (0:ℚ)
          else (accFlip acc).rx / ((accFlip acc).rc : ℚ)) = ldx := by
        simp [accFlip, hldx]
      have h2 : (if (accFlip acc).lc = 0 then (0:ℚ)
          else (accFlip acc).lx / ((accFlip acc).lc : ℚ)) = rdx := by
        simp [accFlip, hrdx]
      rw [h1, h2]
      rcases lt_trichotomy rdx ldx with h | h | h
      · have hnot : ¬ldx < rdx := by linarith
        simp only [if_pos h, if_neg hnot]
        decide
      · have hn1 : ¬rdx < ldx := by rw [h]; exact lt_irrefl ldx
        have hn2 : ¬ldx < rdx := by rw [h]; exact lt_irrefl ldx
        simp only [if_neg hn1, if_neg hn2]
        decide
      · have hnot : ¬rdx < ldx := by linarith
        simp only [if_pos h, if_neg hnot]
        decide
  refine ⟨hmain, ?_, ?_⟩
  · intro frames hfix
    have h := hmain frames
    rw [hfix] at h
    rcases detect_cases frames with hc | hc | hc
    · rw [hc] at h
      exact absurd h (by decide)
    · rw [hc] at h
      exact absurd h (by decide)
    · exact hc
  · intro frames hc hc0
    unfold detectHandedness
    have he : ¬frames.isEmpty = true := by
      intro habs
      have hnil : frames = [] := List.isEmpty_iff.mp habs
      rw [hnil] at hc0
      simp [handAcc, handIdxs] at hc0
    rw [if_neg he]
    dsimp only
    rw [if_neg hc0, if_neg (show ¬(handAcc frames).lc = 0 by rw [← hc]; exact hc0)]
    rw [← hc]
    have hpos : (0:ℚ) < ((handAcc frames).rc : ℚ) := by
      exact_mod_cast Nat.pos_of_ne_zero hc0
    constructor
    · intro hre
      split at hre
      · next hlt => exact (div_lt_div_iff_of_pos_right hpos).mp hlt
      · split at hre
        · exact absurd hre (by decide)
        · exact absurd hre (by decide)
    · intro hlt
      rw [if_pos ((div_lt_div_iff_of_pos_right hpos).mpr hlt)]

/-- Witness for the amended C5, applied at a single-frame track with no
wrist data (a fixed point of the wrist swap): detection yields unknown. -/
theorem hand_detection_amended_witness : detectHandedness [defFrame] = "?" :=
  hand_detection_amended.2.1 [defFrame] rfl

/-- Track refuting the net-displacement reading of C5: over the last-quarter
window (indices 7 and 8 of 9 frames) the right wrist is observed in one pair
with displacement -4 and the left wrist in two pairs totalling -6. -/
def ceFrames : List VFrame :=
  [⟨0, []⟩, ⟨1, []⟩, ⟨2, []⟩, ⟨3, []⟩, ⟨4, []⟩, ⟨5, []⟩,
   ⟨6, [("lWrist", ((10 : ℚ), 0, 0))]⟩,
   ⟨7, [("rWrist", ((0 : ℚ), 0, 0)), ("lWrist", ((7 : ℚ), 0, 0))]⟩,
   ⟨8, [("rWrist", ((-4 : ℚ), 0, 0)), ("lWrist", ((4 : ℚ), 0, 0))]⟩]

/-- Counterexample to claim C5 as stated: on `ceFrames` the left wrist's net
x displacement (-6) is more negative than the right's (-4), yet
`detectHandedness` answers "R", because the source compares per-pair means
(`rdx = rc ? rx/rc : 0`), i.e. -4/1 against -6/2. -/
theorem hand_net_counterexample :
    detectHandedness ceFrames = "R" ∧
    (handAcc ceFrames).rx = -4 ∧ (handAcc ceFrames).lx = -6 ∧
    ¬((handAcc ceFrames).rx < (handAcc ceFrames).lx) := by
  have hacc : handAcc ceFrames =
      ⟨0 + (-4 - 0), 1, 0 + (7 - 10) + (4 - 7), 2⟩ := rfl
  refine ⟨?_, ?_, ?_, ?_⟩
  · unfold detectHandedness
    rw [if_neg (show ¬ceFrames.isEmpty = true from by decide)]
    dsimp only
    rw [hacc]
    norm_num
  · rw [hacc]; norm_num
  · rw [hacc]; norm_num
  · rw [hacc]; norm_num

/-! ### Claims C3 and C4: the trunk-rotation pipeline

Both the per-frame Kinematics Engine (`metrics`, lines 933-945) and the
Biomechanics Series Builder (`biomech`, lines 1131-1142) derive the raw
shoulder-line yaw with the same lookups and the same
`wrap180(yawDeg(homeVec, shoulderAxis))` expression, and then diverge.  The
pipeline is embedded as a function of the per-frame raw yaw value (the
transcendental `yawDeg` output), with `none` standing for a frame missing a
shoulder, in which case both sides skip the frame and keep their carried
state. -/

/-- One step of the per-frame engine's trunk computation (lines 939-944):
wrap the raw yaw, unwrap against the carried value, smooth
`0.7*prev + 0.3*unwrapped` (first observation unsmoothed), store the
smoothed value and display its wrap. -/
def metricsTrunkStep (prev : Option ℚ) (yaw : ℚ) : ℚ × ℚ :=
  let raw := wrap180 yaw
  match prev with
  | none => (wrap180 raw, raw)
  | some p =>
      let unwrapped := unwrapToPrev raw p
      let smoothed := (7/10) * p + (3/10) * unwrapped
      (wrap180 smoothed, smoothed)

/-- Sequential run of the per-frame engine from frame 0 with reset state. -/
def metricsTrunkSeqAux (prev : Option ℚ) : List (Option ℚ) → List (Option ℚ)
  | [] => []
  | none :: rest => none :: metricsTrunkSeqAux prev rest
  | some yaw :: rest =>
      let r := metricsTrunkStep prev yaw
      some r.1 :: metricsTrunkSeqAux (some r.2) rest

/-- Per-frame engine values at every frame, threading the carried trunk
state from frame 0. -/
def metricsTrunkSeq (yaws : List (Option ℚ)) : List (Option ℚ) :=
  metricsTrunkSeqAux none yaws

/-- One step of the series builder's trunk computation (lines 1137-1141):
wrap the raw yaw, seed the carried value on first observation, unwrap
against it, and store/emit the unwrapped value with no smoothing. -/
def biomechTrunkStep (prev : Option ℚ) (yaw : ℚ) : ℚ × ℚ :=
  let raw := wrap180 yaw
  let p := match prev with | none => raw | some p => p
  let unwrapped := unwrapToPrev raw p
  (unwrapped, unwrapped)

/-- Trunk-rotation series of the Biomechanics Series Builder. -/
def biomechTrunkSeriesAux (prev : Option ℚ) : List (Option ℚ) → List (Option ℚ)
  | [] => []
  | none :: rest => none :: biomechTrunkSeriesAux prev rest
  | some yaw :: rest =>
      let r := biomechTrunkStep prev yaw
      some r.1 :: biomechTrunkSeriesAux (some r.2) rest

/-- Trunk-rotation series over a track's raw yaw inputs. -/
def biomechTrunkSeries (yaws : List (Option ℚ)) : List (Option ℚ) :=
  biomechTrunkSeriesAux none yaws

/-- Comparison definition for the amended C3, following the spec's per-frame
formula of section 4.5 with the exponential smoothing step removed: the
carried value is the unwrapped value itself. -/
def specTrunkStepNoSmooth (prev : Option ℚ) (yaw : ℚ) : ℚ × ℚ :=
  let raw := wrap180 yaw
  match prev with
  | none => (wrap180 raw, raw)
  | some p =>
      let unwrapped := unwrapToPrev raw p
      (wrap180 unwrapped, unwrapped)

/-- Sequential run of `specTrunkStepNoSmooth`. -/
def specTrunkSeqNoSmoothAux (prev : Option ℚ) : List (Option ℚ) → List (Option ℚ)
  | [] => []
  | none :: rest => none :: specTrunkSeqNoSmoothAux prev rest
  | some yaw :: rest =>
      let r := specTrunkStepNoSmooth prev yaw
      some r.1 :: specTrunkSeqNoSmoothAux (some r.2) rest

/-- Smoothing-free reference series for the amended C3. -/
def specTrunkSeqNoSmooth (yaws : List (Option ℚ)) : List (Option ℚ) :=
  specTrunkSeqNoSmoothAux none yaws

lemma unwrapToPrev_of_close {n p : ℚ} (h1 : p - n ≤ 180) (h2 : n - p ≤ 180)
    (h3 : -180 ≤ n) (h4 : n ≤ 180) : unwrapToPrev n p = n := by
  unfold unwrapToPrev
  rw [unwrapUp, dif_neg (by linarith)]
  rw [unwrapDown, dif_neg (by linarith)]
  exact wrap180_of_bounds (by linarith) (by linarith)

lemma wrap180_unwrapToPrev (n p : ℚ) :
    wrap180 (unwrapToPrev n p) = unwrapToPrev n p := by
  unfold unwrapToPrev
  exact wrap180_idem _

lemma biomechStep_eq_specStep_some (p yaw : ℚ) :
    biomechTrunkStep (some p) yaw = specTrunkStepNoSmooth (some p) yaw := by
  unfold biomechTrunkStep specTrunkStepNoSmooth
  dsimp only
  rw [wrap180_unwrapToPrev]

lemma trunkSeries_eq_aux (yaws : List (Option ℚ)) :
    (∀ p, biomechTrunkSeriesAux (some p) yaws = specTrunkSeqNoSmoothAux (some p) yaws) ∧
    biomechTrunkSeriesAux none yaws = specTrunkSeqNoSmoothAux none yaws := by
  induction yaws with
  | nil => exact ⟨fun _ => rfl, rfl⟩
  | cons hd tl ih =>
    constructor
    · intro p
      cases hd with
      | none =>
        unfold biomechTrunkSeriesAux specTrunkSeqNoSmoothAux
        rw [ih.1 p]
      | some yaw =>
        unfold biomechTrunkSeriesAux specTrunkSeqNoSmoothAux
        rw [biomechStep_eq_specStep_some p yaw]
        unfold specTrunkStepNoSmooth
        dsimp only
        rw [ih.1 (unwrapToPrev (wrap180 yaw) p)]
    · cases hd with
      | none =>
        unfold biomechTrunkSeriesAux specTrunkSeqNoSmoothAux
        rw [ih.2]
      | some yaw =>
        unfold biomechTrunkSeriesAux specTrunkSeqNoSmoothAux
          biomechTrunkStep specTrunkStepNoSmooth
        dsimp only
        obtain ⟨hr1, hr2⟩ := wrap180_mem yaw
        have hself : unwrapToPrev (wrap180 yaw) (wrap180 yaw) = wrap180 yaw :=
          unwrapToPrev_self hr1 hr2
        rw [hself, wrap180_idem]
        rw [ih.1 (wrap180 yaw)]

/-- Claim C3, amended: the Biomechanics Series Builder's trunk-rotation
series equals the per-frame Kinematics Engine run sequentially from frame 0
with its 0.7/0.3 exponential smoothing step removed (the wrap and the
unwrap threading coincide; the engine's final wrap is idempotent there).
With the smoothing step included the two functions differ, as the
counterexample shows. -/
theorem biomech_series_amended (yaws : List (Option ℚ)) :
    biomechTrunkSeries yaws = specTrunkSeqNoSmooth yaws :=
  (trunkSeries_eq_aux yaws).2

/-- Counterexample to claim C3 as stated: with raw shoulder yaws 0 then 100,
the sequential per-frame engine smooths the second frame to
0.7*0 + 0.3*100 = 30, while the series builder emits the unsmoothed 100. -/
theorem biomech_series_counterexample :
    biomechTrunkSeries [some 0, some 100] = [some 0, some 100] ∧
    metricsTrunkSeq [some 0, some 100] = [some 0, some 30] ∧
    biomechTrunkSeries [some 0, some 100] ≠ metricsTrunkSeq [some 0, some 100] := by
  have w0 : wrap180 (0 : ℚ) = 0 := wrap180_of_bounds (by norm_num) (by norm_num)
  have w100 : wrap180 (100 : ℚ) = 100 :=
    wrap180_of_bounds (by norm_num) (by norm_num)
  have u00 : unwrapToPrev (0 : ℚ) 0 = 0 :=
    unwrapToPrev_self (by norm_num) (by norm_num)
  have u1000 : unwrapToPrev (100 : ℚ) 0 = 100 :=
    unwrapToPrev_of_close (by norm_num) (by norm_num) (by norm_num) (by norm_num)
  have hb : biomechTrunkSeries [some 0, some 100] = [some 0, some 100] := by
    simp only [biomechTrunkSeries, biomechTrunkSeriesAux, biomechTrunkStep]
    rw [w0, u00, w100, u1000]
  have hm : metricsTrunkSeq [some 0, some 100] = [some 0, some 30] := by
    simp only [metricsTrunkSeq, metricsTrunkSeqAux, metricsTrunkStep]
    rw [w0, w0, w100, u1000,
      show (7/10 : ℚ) * 0 + (3/10) * 100 = 30 by norm_num,
      wrap180_of_bounds (by norm_num) (by norm_num)]
  refine ⟨hb, hm, ?_⟩
  rw [hb, hm]
  intro h
  have h2 := (List.cons.inj h).2
  have h3 := Option.some.inj (List.cons.inj h2).1
  norm_num at h3

/-- Claim C4, evaluated at the boundary-crossing input that exposes the
unwrap bug: with carried value 170 and raw shoulder yaw -170, the source's
`unwrapToPrev` re-wraps its shifted candidate (line 106 ends in
`return wrap180(cand)`), so the engine smooths toward -170 and produces 68,
while the minimal-jump unwrap of the claim (and of spec section 4.5 and
test 8.4) reaches 190 and would produce 176. -/
theorem trunk_unwrap_code_bug :
    metricsTrunkStep (some 170) (-170) = (68, 68) ∧
    unwrapToPrev (-170) 170 = -170 ∧
    wrap180 ((7/10) * 170 + (3/10) * 190) = 176 ∧
    ((68 : ℚ) ≠ 176) := by
  have hu : unwrapToPrev (-170 : ℚ) 170 = -170 := by
    unfold unwrapToPrev
    rw [unwrapUp, dif_pos (by norm_num)]
    rw [unwrapUp, dif_neg (by norm_num)]
    rw [unwrapDown, dif_neg (by norm_num)]
    rw [wrap180, dif_pos (by norm_num)]
    rw [wrap180, dif_neg (by norm_num), dif_neg (by norm_num)]
    norm_num
  refine ⟨?_, hu, ?_, by norm_num⟩
  · unfold metricsTrunkStep
    dsimp only
    rw [wrap180_of_bounds (show ¬(180:ℚ) < -170 by norm_num)
      (show ¬(-170:ℚ) < -180 by norm_num), hu]
    rw [show (7/10 : ℚ) * 170 + (3/10) * (-170) = 68 by norm_num,
      wrap180_of_bounds (by norm_num) (by norm_num)]
  · rw [show (7/10 : ℚ) * 170 + (3/10) * 190 = 176 by norm_num,
      wrap180_of_bounds (by norm_num) (by norm_num)]

/-! ### Claim C8: release timestamp extraction
(`extractReleaseSecondsFromJson`, lines 152-177)

The source finds an event typed "PITCH", reads a release timestamp through a
priority chain of vendor keys, guards both timestamps with JS falsiness
checks, and then computes
`(new Date(relUTC).getTime() - new Date(startUTC).getTime()) / 1000` with no
finiteness check: a truthy but unparsable timestamp yields NaN, not
`undefined`.  Platform date parsing is abstracted as a parameter `dparse`
(`none` = invalid date, whose `getTime()` is NaN). -/

/-- JS truthiness of the modelled values: `false`, `0`, `NaN`, `""` and
`null` are falsy. -/
def jTruthy : JVal → Bool
  | .fnum q => if q = 0 then false else true
  | .nonfin => false
  | .str s => if s = "" then false else true
  | .jbool b => b
  | .null => false
  | .arr _ => true
  | .obj _ => true

/-- Uppercases every character, mirroring `toUpperCase` on event types. -/
def strUpper (s : String) : String := ⟨s.data.map Char.toUpper⟩

/-- Embeds the event-type test `String(e?.type || "").toUpperCase() ===
"PITCH"` (line 155). -/
def eventTypeIsPitch (e : JVal) : Bool :=
  let t :=
    match jGet e "type" with
    | some v => if jTruthy v then v else .str ""
    | none => .str ""
  decide (strUpper (jToStr t) = "PITCH")

/-- First key of a priority chain whose value is present and non-null,
mirroring a `?? ` chain of property reads. -/
def firstKey (v : JVal) : List String → Option JVal
  | [] => none
  | k :: ks =>
    match jGet v k with
    | some .null => firstKey v ks
    | some w => some w
    | none => firstKey v ks

/-- First path of a priority chain whose value is present and non-null. -/
def firstPath (v : JVal) : List (List String) → Option JVal
  | [] => none
  | p :: ps =>
    match jGetPath v p with
    | some .null => firstPath v ps
    | some w => some w
    | none => firstPath v ps

/-- Release timestamp value: the PITCH event's release-time field through
the vendor-key priority chain (lines 153-163). -/
def releaseValue (root : JVal) : Option JVal :=
  let events :=
    match firstPath root [["events"], ["details", "events"]] with
    | some v => v
    | none => .arr []
  let pitchEvt : Option JVal :=
    match events with
    | .arr xs => xs.find? eventTypeIsPitch
    | _ => none
  match pitchEvt with
  | some ev =>
      firstKey ev
        ["refinedReleaseTimeUTC", "releaseTimeUTC", "ballReleaseTimeUTC",
         "releaseUtc"]
  | none => none

/-- Clip start timestamp through its location chain (lines 167-171). -/
def startValue (root : JVal) : Option JVal :=
  firstPath root [["time", "startUTC"], ["timeline", "startUTC"],
    ["meta", "startUTC"]]

/-- Result values of the extraction: JS `undefined`, `NaN`, or a number. -/
inductive JsNum where
  | undef
  | nan
  | val (q : ℚ)
deriving DecidableEq

/-- Epoch milliseconds of `new Date(v)`: a number is taken as is, a string
goes through the abstracted platform parser, other shapes are invalid. -/
def dateMs (dparse : String → Option ℚ) : JVal → Option ℚ
  | .fnum q => some q
  | .str s => dparse s
  | _ => none

/-- Embeds `extractReleaseSecondsFromJson` (lines 152-177). -/
def extractReleaseSeconds (dparse : String → Option ℚ) (root : JVal) : JsNum :=
  match releaseValue root with
  | none => .undef
  | some rv =>
    if jTruthy rv = false then .undef
    else
      match startValue root with
      | none => .undef
      | some sv =>
        if jTruthy sv = false then .undef
        else
          match dateMs dparse rv, dateMs dparse sv with
          | some r, some s => .val ((r - s) / 1000)
          | _, _ => .nan

/-- Stand-in platform date parser for the concrete documents: parses exactly
the two timestamps used there. -/
def dparse0 : String → Option ℚ := fun s =>
  if s = "2020-01-01T00:00:10Z" then some 10000
  else if s = "2020-01-01T00:00:00Z" then some 0
  else none

/-- Document whose PITCH event carries an unparsable release timestamp while
the clip start parses fine. -/
def rootRelBad : JVal := .obj
  [("events", .arr [.obj [("type", .str "PITCH"),
      ("releaseTimeUTC", .str "garbage")]]),
   ("time", .obj [("startUTC", .str "2020-01-01T00:00:00Z")])]

/-- Counterexample to claim C8 as stated: a present but unparsable release
timestamp makes the source return `NaN/1000 = NaN`, not `undefined` (there
is no finiteness check after the subtraction on line 175). -/
theorem release_nan_counterexample :
    extractReleaseSeconds dparse0 rootRelBad = JsNum.nan ∧
    JsNum.nan ≠ JsNum.undef := by
  constructor
  · rfl
  · decide

/-- Claim C8, amended: the extraction returns `(release - start) / 1000`
seconds when both timestamps are present, truthy, and parse; `undefined`
when the release chain or the start chain yields nothing or a falsy value;
and `NaN` (not `undefined`) when both are present and truthy but either
fails to parse as a date. -/
theorem release_seconds_amended (dparse : String → Option ℚ) (root : JVal) :
    (∀ rv sv r s, releaseValue root = some rv → jTruthy rv = true →
      startValue root = some sv → jTruthy sv = true →
      dateMs dparse rv = some r → dateMs dparse sv = some s →
      extractReleaseSeconds dparse root = .val ((r - s) / 1000)) ∧
    (∀ rv sv, releaseValue root = some rv → jTruthy rv = true →
      startValue root = some sv → jTruthy sv = true →
      (dateMs dparse rv = none ∨ dateMs dparse sv = none) →
      extractReleaseSeconds dparse root = .nan) ∧
    (∀ rv, releaseValue root = some rv → jTruthy rv = false →
      extractReleaseSeconds dparse root = .undef) ∧
    (releaseValue root = none → extractReleaseSeconds dparse root = .undef) := by
  refine ⟨?_, ?_, ?_, ?_⟩
  · intro rv sv r s hrv htr hsv hts hdr hds
    unfold extractReleaseSeconds
    rw [hrv, hsv]
    simp [htr, hts, hdr, hds]
  · intro rv sv hrv htr hsv hts hbad
    unfold extractReleaseSeconds
    rw [hrv, hsv]
    rcases hbad with hbad | hbad
    · simp [htr, hts, hbad]
    · simp only [htr, hts, hbad]
      cases hdr : dateMs dparse rv <;> simp [hdr, hbad]
  · intro rv hrv htr
    unfold extractReleaseSeconds
    rw [hrv]
    simp [htr]
  · intro hrv
    unfold extractReleaseSeconds
    rw [hrv]

/-- Document with parsable release and start timestamps ten seconds apart. -/
def rootRelGood : JVal := .obj
  [("events", .arr [.obj [("type", .str "PITCH"),
      ("releaseTimeUTC", .str "2020-01-01T00:00:10Z")]]),
   ("time", .obj [("startUTC", .str "2020-01-01T00:00:00Z")])]

/-- Witness for the amended C8: both timestamps parse and the extraction
yields ten seconds. -/
theorem release_seconds_amended_witness :
    extractReleaseSeconds dparse0 rootRelGood = JsNum.val 10 := by
  have h := (release_seconds_amended dparse0 rootRelGood).1
    (.str "2020-01-01T00:00:10Z") (.str "2020-01-01T00:00:00Z") 10000 0
    rfl rfl rfl rfl rfl rfl
  rw [h]
  norm_num

/-! ### Claim C9: the per-frame Kinematics Engine with a missing left hip
(`metrics`, lines 860-1028)

Transcendental primitives are collected in `Prims`; every theorem below is
proved for all interpretations, and concrete evaluations instantiate them
with simple stand-ins. -/

/-- Abstracted transcendental primitives: square root, two-argument
arctangent, arccosine (radians), radian-to-degree conversion, and the value
of pi (THREE's `angleTo` returns `Math.PI / 2` for degenerate inputs). -/
structure Prims where
  sqrtF : ℚ → ℚ
  atan2F : ℚ → ℚ → ℚ
  acosF : ℚ → ℚ
  radToDegF : ℚ → ℚ
  piQ : ℚ

/-- THREE.Vector3.normalize: divide by `length() || 1`, so the zero vector
stays zero. -/
def v3norm (P : Prims) (v : V3) : V3 :=
  let n := P.sqrtF (vlensq v)
  vscale (1 / (if n = 0 then 1 else n)) v

/-- MathUtils.clamp. -/
def clampQ (x lo hi : ℚ) : ℚ := max lo (min hi x)

/-- THREE.Vector3.angleTo (radians): `acos(clamp(dot/denominator, -1, 1))`,
with `PI/2` when the denominator is zero. -/
def angleTo (P : Prims) (a b : V3) : ℚ :=
  let den := P.sqrtF (vlensq a * vlensq b)
  if den = 0 then P.piQ / 2
  else P.acosF (clampQ (vdot a b / den) (-1) 1)

/-- Truncation toward zero, as JS `%` uses. -/
def ratTrunc (q : ℚ) : ℤ := if 0 ≤ q then ⌊q⌋ else ⌈q⌉

/-- JS remainder `a % b` (sign of the dividend). -/
def jsRem (a b : ℚ) : ℚ := a - b * (ratTrunc (a / b) : ℚ)

/-- Embeds `fold90` (lines 137-141): reduce to [0,180], then fold into
[0,90] by `min(x, 180 - x)`. -/
def fold90 (deg : ℚ) : ℚ :=
  let d := |jsRem deg 360|
  let d180 := if 180 < d then 360 - d else d
  min d180 (180 - d180)

/-- Normalized joint-name matching of the `get` helper (lines 864-868):
strip non-letters and lowercase. -/
def normName (s : String) : String :=
  ⟨(s.data.filter Char.isAlpha).map Char.toLower⟩

/-- Scan for the first key whose normalized name matches. -/
def getJAux (want : String) : List (String × V3) → Option V3
  | [] => none
  | kv :: tl => if normName kv.1 = want then some kv.2 else getJAux want tl

/-- Embeds the `get` helper of `metrics` (lines 864-868). -/
def getJ (J : List (String × V3)) (name : String) : Option V3 :=
  getJAux (normName name) J

/-- Midpoint of two joints. -/
def vmid (a b : V3) : V3 :=
  ((a.1 + b.1) / 2, (a.2.1 + b.2.1) / 2, (a.2.2 + b.2.2) / 2)

/-- Joint accessors of `metrics` (lines 871-882), including the literal-key
fallbacks of the source. -/
def lShOf (J : List (String × V3)) : Option V3 :=
  jor (getJ J "lShoulder") (J.lookup "leftShoulder")

/-- Right shoulder accessor (line 872). -/
def rShOf (J : List (String × V3)) : Option V3 :=
  jor (getJ J "rShoulder") (J.lookup "rightShoulder")

/-- Left elbow accessor (line 873). -/
def lElOf (J : List (String × V3)) : Option V3 :=
  jor (getJ J "lElbow") (J.lookup "leftElbow")

/-- Right elbow accessor (line 874). -/
def rElOf (J : List (String × V3)) : Option V3 :=
  jor (getJ J "rElbow") (J.lookup "rightElbow")

/-- Left hip accessor (line 877). -/
def lHipOf (J : List (String × V3)) : Option V3 :=
  jor (getJ J "lHip") (J.lookup "leftHip")

/-- Right hip accessor (line 878). -/
def rHipOf (J : List (String × V3)) : Option V3 :=
  jor (getJ J "rHip") (J.lookup "rightHip")

/-- Left knee accessor (line 879). -/
def lKnOf (J : List (String × V3)) : Option V3 :=
  jor (getJ J "lKnee") (J.lookup "leftKnee")

/-- Right knee accessor (line 880). -/
def rKnOf (J : List (String × V3)) : Option V3 :=
  jor (getJ J "rKnee") (J.lookup "rightKnee")

/-- Left ankle accessor with heel/toe fallbacks (line 881). -/
def lAnOf (J : List (String × V3)) : Option V3 :=
  jor (getJ J "lAnkle") (jor (J.lookup "leftAnkle") (jor (J.lookup "lHeel")
    (jor (J.lookup "leftHeel") (jor (J.lookup "lBigToe")
      (J.lookup "leftBigToe")))))

/-- Right ankle accessor with heel/toe fallbacks (line 882). -/
def rAnOf (J : List (String × V3)) : Option V3 :=
  jor (getJ J "rAnkle") (jor (J.lookup "rightAnkle") (jor (J.lookup "rHeel")
    (jor (J.lookup "rightHeel") (jor (J.lookup "rBigToe")
      (J.lookup "rightBigToe")))))

/-- Pelvis resolution (lines 884-885): explicit aliases, else the midpoint
of the hips when both are present. -/
def pelvisOf (J : List (String × V3)) : Option V3 :=
  match jor (getJ J "midHip") (jor (getJ J "pelvis")
      (jor (J.lookup "hipCenter") (J.lookup "pelvisCenter"))) with
  | some p => some p
  | none =>
    match lHipOf J, rHipOf J with
    | some l, some r => some (vmid l r)
    | _, _ => none

/-- Chest resolution (lines 887-888): explicit aliases, else the midpoint of
the shoulders when both are present. -/
def chestOf (J : List (String × V3)) : Option V3 :=
  match jor (getJ J "chest") (jor (J.lookup "midShoulder")
      (jor (J.lookup "upperChest") (jor (J.lookup "sternum")
        (jor (getJ J "neck") (J.lookup "c7"))))) with
  | some c => some c
  | none =>
    match lShOf J, rShOf J with
    | some l, some r => some (vmid l r)
    | _, _ => none

/-- Trunk-up axis `T` (lines 912-918): normalized chest minus pelvis,
world-up when unavailable or degenerate. -/
def TOf (P : Prims) (J : List (String × V3)) : V3 :=
  match pelvisOf J, chestOf J with
  | some p, some c =>
    let t := vsub c p
    if 1 / 10000000000 < vlensq t then v3norm P t else (0, 1, 0)
  | _, _ => (0, 1, 0)

/-- Right upper-arm vector (line 952). -/
def rUpperOf (J : List (String × V3)) : Option V3 :=
  match rShOf J, rElOf J with
  | some s, some e => some (vsub e s)
  | _, _ => none

/-- Right shoulder abduction (line 957): fold90 of the angle between the
normalized upper arm and the trunk-up axis. -/
def rAbdOf (P : Prims) (J : List (String × V3)) : Option ℚ :=
  match rUpperOf J with
  | some u =>
    if 1 / 10000000000 < vlensq u then
      some (fold90 (P.radToDegF (angleTo P (v3norm P u) (TOf P J))))
    else none
  | none => none

/-- Embeds `kneeFlex` (lines 961-966): angle between normalized
(hip - knee) and (ankle - knee), `undefined` if any joint is absent. -/
def kneeFlex (P : Prims) (hip knee ankle : Option V3) : Option ℚ :=
  match hip, knee, ankle with
  | some h, some k, some a =>
      some (P.radToDegF (angleTo P (v3norm P (vsub h k)) (v3norm P (vsub a k))))
  | _, _, _ => none

/-- Right knee flexion (line 967). -/
def rKneeFlexOf (P : Prims) (J : List (String × V3)) : Option ℚ :=
  kneeFlex P (rHipOf J) (rKnOf J) (rAnOf J)

/-- Left knee flexion (line 968). -/
def lKneeFlexOf (P : Prims) (J : List (String × V3)) : Option ℚ :=
  kneeFlex P (lHipOf J) (lKnOf J) (lAnOf J)

/-- Embeds `pickJoint` (lines 971-977) on the typed joint map, where every
stored value already satisfies the finite-triple check. -/
def pickJoint (J : List (String × V3)) : List String → Option V3
  | [] => none
  | n :: rest =>
    match J.lookup n with
    | some v => some v
    | none => pickJoint J rest

/-- Embeds `elbowFlex` (lines 978-983). -/
def elbowFlex (P : Prims) (sh el wr : Option V3) : Option ℚ :=
  match sh, el, wr with
  | some s, some e, some w =>
      some (P.radToDegF (angleTo P (v3norm P (vsub s e)) (v3norm P (vsub w e))))
  | _, _, _ => none

/-- Right elbow flexion (line 984). -/
def rElbowFlexOf (P : Prims) (J : List (String × V3)) : Option ℚ :=
  elbowFlex P (pickJoint J ["rShoulder", "rightShoulder"])
    (pickJoint J ["rElbow", "rightElbow"]) (pickJoint J ["rWrist", "rightWrist"])

/-- Removes the left-hip joint under both of its aliases. -/
def eraseLHip (J : List (String × V3)) : List (String × V3) :=
  J.filter (fun kv => !(normName kv.1 == "lhip" || kv.1 == "leftHip"))

lemma getJAux_erase (want : String) (h1 : want ≠ "lhip")
    (h2 : want ≠ "lefthip") (J : List (String × V3)) :
    getJAux want (eraseLHip J) = getJAux want J := by
  induction J with
  | nil => rfl
  | cons kv tl ih =>
    by_cases hkeep : (normName kv.1 == "lhip" || kv.1 == "leftHip") = true
    · have hne : ¬normName kv.1 = want := by
        intro he
        rcases Bool.or_eq_true_iff.mp hkeep with hh | hh
        · exact h1 (he ▸ (eq_of_beq hh))
        · have : normName kv.1 = "lefthip" := by
            rw [eq_of_beq hh]
            rfl
          exact h2 (he ▸ this)
      unfold eraseLHip at ih ⊢
      rw [List.filter_cons_of_neg (by simp [hkeep])]
      rw [ih]
      conv_rhs => rw [getJAux]
      rw [if_neg hne]
    · unfold eraseLHip at ih ⊢
      rw [List.filter_cons_of_pos (by simpa using hkeep)]
      unfold getJAux
      rw [ih]

lemma lookup_erase (k : String) (h1 : normName k ≠ "lhip")
    (h2 : k ≠ "leftHip") (J : List (String × V3)) :
    (eraseLHip J).lookup k = J.lookup k := by
  induction J with
  | nil => rfl
  | cons kv tl ih =>
    by_cases hkeep : (normName kv.1 == "lhip" || kv.1 == "leftHip") = true
    · have hne : (k == kv.1) = false := by
        rw [beq_eq_false_iff_ne]
        intro he
        rcases Bool.or_eq_true_iff.mp hkeep with hh | hh
        · exact h1 (he ▸ (eq_of_beq hh))
        · exact h2 (he ▸ (eq_of_beq hh))
      unfold eraseLHip at ih ⊢
      rw [List.filter_cons_of_neg (by simp [hkeep])]
      rw [ih]
      conv_rhs => rw [List.lookup]
      rw [hne]
    · unfold eraseLHip at ih ⊢
      rw [List.filter_cons_of_pos (by simpa using hkeep)]
      rw [List.lookup, List.lookup, ih]

lemma getJ_erase (name : String) (h1 : normName name ≠ "lhip")
    (h2 : normName name ≠ "lefthip") (J : List (String × V3)) :
    getJ (eraseLHip J) name = getJ J name :=
  getJAux_erase (normName name) h1 h2 J

lemma pickJoint_erase (J : List (String × V3)) (names : List String)
    (h : ∀ n ∈ names, normName n ≠ "lhip" ∧ n ≠ "leftHip") :
    pickJoint (eraseLHip J) names = pickJoint J names := by
  induction names with
  | nil => rfl
  | cons n rest ih =>
    unfold pickJoint
    rw [lookup_erase n (h n (by simp)).1 (h n (by simp)).2]
    cases J.lookup n with
    | some v => rfl
    | none => exact ih (fun m hm => h m (by simp [hm]))

/-- Claim C9, amended: in a frame whose joint map lacks the left hip under
both of its aliases, left knee flexion is `undefined` (the computation is
total, so nothing throws), and right knee flexion and right elbow flexion
are exactly what they would be with the left hip present.  Right shoulder
abduction is NOT preserved in general, because the trunk-up axis uses the
pelvis, which the engine synthesizes from the two hips when no explicit
pelvis joint exists (see the counterexample). -/
theorem missing_lhip_amended (P : Prims) (J : List (String × V3)) :
    (lHipOf J = none → lKneeFlexOf P J = none) ∧
    rKneeFlexOf P (eraseLHip J) = rKneeFlexOf P J ∧
    rElbowFlexOf P (eraseLHip J) = rElbowFlexOf P J := by
  refine ⟨?_, ?_, ?_⟩
  · intro h
    unfold lKneeFlexOf kneeFlex
    rw [h]
  · unfold rKneeFlexOf rHipOf rKnOf rAnOf
    rw [getJ_erase "rHip" (by decide) (by decide),
      getJ_erase "rKnee" (by decide) (by decide),
      getJ_erase "rAnkle" (by decide) (by decide),
      lookup_erase "rightHip" (by decide) (by decide),
      lookup_erase "rightKnee" (by decide) (by decide),
      lookup_erase "rightAnkle" (by decide) (by decide),
      lookup_erase "rHeel" (by decide) (by decide),
      lookup_erase "rightHeel" (by decide) (by decide),
      lookup_erase "rBigToe" (by decide) (by decide),
      lookup_erase "rightBigToe" (by decide) (by decide)]
  · unfold rElbowFlexOf
    rw [pickJoint_erase _ _ (by intro n hn; fin_cases hn <;> exact ⟨by decide, by decide⟩),
      pickJoint_erase _ _ (by intro n hn; fin_cases hn <;> exact ⟨by decide, by decide⟩),
      pickJoint_erase _ _ (by intro n hn; fin_cases hn <;> exact ⟨by decide, by decide⟩)]

lemma fold90_small {d : ℚ} (h0 : 0 ≤ d) (h90 : d ≤ 90) : fold90 d = d := by
  unfold fold90 jsRem ratTrunc
  have hq : (0:ℚ) ≤ d / 360 := by positivity
  have hlt : d / 360 < 1 := by
    rw [div_lt_one (by norm_num : (0:ℚ) < 360)]
    linarith
  rw [if_pos hq]
  have hfl : ⌊d / 360⌋ = 0 := by
    rw [Int.floor_eq_zero_iff]
    exact Set.mem_Ico.mpr ⟨hq, hlt⟩
  rw [hfl]
  simp only [Int.cast_zero, mul_zero, sub_zero]
  rw [abs_of_nonneg h0]
  rw [if_neg (by linarith : ¬(180:ℚ) < d)]
  exact min_eq_left (by linarith)

/-- Stand-in transcendental primitives for the concrete frames below: the
square root is given on the inputs that occur (25 and 1), arccosine and the
radian conversion are the identity. -/
def prims0 : Prims :=
  ⟨fun q => if q = 25 then 5 else if q = 1 then 1 else 0,
   fun _ _ => 0, id, id, 0⟩

/-- Frame exercising C9: no explicit pelvis joint, so the pelvis is the hip
midpoint; the right upper arm is at a nonzero angle to the trunk axis. -/
def jointsCE : List (String × V3) :=
  [("chest", ((3:ℚ), 4, 0)), ("lHip", ((-1:ℚ), 0, 0)), ("rHip", ((1:ℚ), 0, 0)),
   ("rShoulder", ((0:ℚ), 0, 0)), ("rElbow", ((0:ℚ), 3, 4))]

lemma rUpper_jointsCE : rUpperOf jointsCE = some ((0:ℚ), 3, 4) := by
  rw [show rUpperOf jointsCE = some (vsub ((0:ℚ), 3, 4) ((0:ℚ), 0, 0)) from rfl]
  norm_num [vsub]

lemma rUpper_jointsCE_erased : rUpperOf (eraseLHip jointsCE) = some ((0:ℚ), 3, 4) := by
  rw [show rUpperOf (eraseLHip jointsCE) =
    some (vsub ((0:ℚ), 3, 4) ((0:ℚ), 0, 0)) from rfl]
  norm_num [vsub]

lemma lensq345 : vlensq ((0:ℚ), 3, 4) = 25 := by norm_num [vlensq, vdot]

lemma lensq340 : vlensq ((3:ℚ), 4, 0) = 25 := by norm_num [vlensq, vdot]

lemma norm345 : v3norm prims0 ((0:ℚ), 3, 4) = (0, 3/5, 4/5) := by
  unfold v3norm prims0
  rw [lensq345]
  norm_num [vscale]

lemma T_jointsCE : TOf prims0 jointsCE = (3/5, 4/5, 0) := by
  have hpel : pelvisOf jointsCE = some ((0:ℚ), 0, 0) := by
    rw [show pelvisOf jointsCE =
      some (vmid ((-1:ℚ), 0, 0) ((1:ℚ), 0, 0)) from rfl]
    norm_num [vmid]
  unfold TOf
  rw [hpel, show chestOf jointsCE = some ((3:ℚ), 4, 0) from rfl]
  dsimp only
  rw [show vsub ((3:ℚ), 4, 0) ((0:ℚ), 0, 0) = ((3:ℚ), 4, 0) from by
    norm_num [vsub]]
  rw [lensq340, if_pos (by norm_num)]
  unfold v3norm prims0
  rw [lensq340]
  norm_num [vscale]

lemma T_jointsCE_erased : TOf prims0 (eraseLHip jointsCE) = (0, 1, 0) := by
  unfold TOf
  rw [show pelvisOf (eraseLHip jointsCE) = none from rfl]

lemma angle_with : angleTo prims0 ((0:ℚ), 3/5, 4/5) (3/5, 4/5, 0) = 12/25 := by
  unfold angleTo prims0
  rw [show vlensq ((0:ℚ), 3/5, 4/5) * vlensq ((3:ℚ)/5, 4/5, 0) = 1 from by
    norm_num [vlensq, vdot]]
  norm_num [clampQ, vdot, min_def, max_def]

lemma angle_without : angleTo prims0 ((0:ℚ), 3/5, 4/5) (0, 1, 0) = 3/5 := by
  unfold angleTo prims0
  rw [show vlensq ((0:ℚ), 3/5, 4/5) * vlensq ((0:ℚ), 1, 0) = 1 from by
    norm_num [vlensq, vdot]]
  norm_num [clampQ, vdot, min_def, max_def]

/-- Counterexample to claim C9 as stated: on `jointsCE` the pelvis is
synthesized from the hips, so removing the left hip changes the trunk-up
axis from (3/5, 4/5, 0) to world-up, and the right shoulder abduction
changes (12/25 versus 3/5 under the stand-in primitives), refuting the
claim that right-side computations are unaffected. -/
theorem missing_lhip_rabd_counterexample :
    lHipOf (eraseLHip jointsCE) = none ∧
    rAbdOf prims0 jointsCE = some (12/25) ∧
    rAbdOf prims0 (eraseLHip jointsCE) = some (3/5) ∧
    rAbdOf prims0 (eraseLHip jointsCE) ≠ rAbdOf prims0 jointsCE := by
  have hwith : rAbdOf prims0 jointsCE = some (12/25) := by
    unfold rAbdOf
    rw [rUpper_jointsCE]
    dsimp only
    rw [lensq345, if_pos (by norm_num), norm345, T_jointsCE]
    rw [angle_with]
    rw [show Prims.radToDegF prims0 (12/25) = 12/25 from rfl]
    rw [fold90_small (by norm_num) (by norm_num)]
  have hwithout : rAbdOf prims0 (eraseLHip jointsCE) = some (3/5) := by
    unfold rAbdOf
    rw [rUpper_jointsCE_erased]
    dsimp only
    rw [lensq345, if_pos (by norm_num), norm345, T_jointsCE_erased]
    rw [angle_without]
    rw [show Prims.radToDegF prims0 (3/5) = 3/5 from rfl]
    rw [fold90_small (by norm_num) (by norm_num)]
  refine ⟨rfl, hwith, hwithout, ?_⟩
  rw [hwith, hwithout]
  intro h
  have := Option.some.inj h
  norm_num at this

/-- Witness for the amended C9 at the concrete frame with the left hip
removed: left knee flexion is unavailable and the right-side flexions agree
with the original frame. -/
theorem missing_lhip_amended_witness :
    lKneeFlexOf prims0 (eraseLHip jointsCE) = none ∧
    rKneeFlexOf prims0 (eraseLHip jointsCE) = rKneeFlexOf prims0 jointsCE ∧
    rElbowFlexOf prims0 (eraseLHip jointsCE) = rElbowFlexOf prims0 jointsCE :=
  ⟨(missing_lhip_amended prims0 (eraseLHip jointsCE)).1 rfl,
   (missing_lhip_amended prims0 jointsCE).2.1,
   (missing_lhip_amended prims0 jointsCE).2.2⟩

/-! ### Claim C2: event detection (`findFootStrike`, lines 189-258, and
`findBallRelease`, lines 261-362)

Both detectors are pure functions of their inputs (determinism is inherent).
`findBallRelease` structurally returns an index for every non-empty frame
list; `findFootStrike` returns the best-scoring interior local minimum of
the lead ankle's vertical series and yields `undefined` when no interior
local minimum exists — also on non-empty input (e.g. fewer than five
frames). -/

/-- The home-plate axis `HOME_BASE` (line 93). -/
def HOME_BASE : V3 := ((-1 : ℚ), 0, 0)

/-- Embeds `yawDeg` (lines 108-115): signed ground-plane angle between two
axes via `atan2(cross, dot)` of the normalized XY projections. -/
def yawDeg (P : Prims) (ref v : V3) : ℚ :=
  let R := v3norm P (ref.1, ref.2.1, 0)
  let V := v3norm P (v.1, v.2.1, 0)
  let cross := R.1 * V.2.1 - R.2.1 * V.1
  let dot := vdot R V
  P.radToDegF (P.atan2F cross dot)

/-- Embeds `finiteDiff` (lines 116-123): forward difference divided by the
clamped time step, zero at index 0. -/
def finiteDiff (vals times : List ℚ) : List ℚ :=
  (List.range vals.length).map (fun i =>
    if i = 0 then 0
    else (vals.getD i 0 - vals.getD (i - 1) 0) /
      max (1 / 1000000) (times.getD i 0 - times.getD (i - 1) 0))

/-- Embeds `movingAvg` (lines 124-136): centered window mean with edge
clipping. -/
def movingAvg (a : List ℚ) (k : ℕ) : List ℚ :=
  if k ≤ 1 then a
  else
    let n := a.length
    let r := k / 2
    (List.range n).map (fun i =>
      let idxs := (List.range n).filter (fun j => i ≤ j + r ∧ j ≤ i + r)
      let s := (idxs.map (fun j => a.getD j 0)).sum
      let c := idxs.length
      if c ≠ 0 then s / (c : ℚ) else a.getD i 0)

/-- Series builder with carry-last fallback (`p ? p[1] : lastY`, starting
from 0), shared by the detector series loops. -/
def fallbackAux (last : ℚ) : List (Option ℚ) → List ℚ
  | [] => []
  | some v :: rest => v :: fallbackAux v rest
  | none :: rest => last :: fallbackAux last rest

/-- Carry-last series starting from 0. -/
def fallbackSeries (xs : List (Option ℚ)) : List ℚ := fallbackAux 0 xs

/-- Lead-ankle accessor of `findFootStrike` (lines 203-205). -/
def ankleKey (leadSide : String) (j : List (String × V3)) : Option V3 :=
  if leadSide = "R" then
    jor (j.lookup "rAnkle") (jor (j.lookup "rightAnkle")
      (jor (j.lookup "rHeel") (j.lookup "rBigToe")))
  else
    jor (j.lookup "lAnkle") (jor (j.lookup "leftAnkle")
      (jor (j.lookup "lHeel") (j.lookup "lBigToe")))

/-- Lead-toe accessor of the foot-yaw proxy (lines 228-230). -/
def toeKey (leadSide : String) (j : List (String × V3)) : Option V3 :=
  if leadSide = "R" then
    jor (j.lookup "rBigToe") (jor (j.lookup "rightBigToe") (j.lookup "rHeel"))
  else
    jor (j.lookup "lBigToe") (jor (j.lookup "leftBigToe") (j.lookup "lHeel"))

/-- Lead-side resolution of `findFootStrike` (lines 192-201): opposite of
the hand hint, else from the mid-clip ankle positions. -/
def leadSideOf (frames : List VFrame) (handHint : String) : String :=
  if handHint = "R" then "L"
  else if handHint = "L" then "R"
  else
    let mid := (frames.getD (frames.length / 2) defFrame).joints
    let rA := jor (mid.lookup "rAnkle") (jor (mid.lookup "rightAnkle")
      (jor (mid.lookup "rHeel") (mid.lookup "rBigToe")))
    let lA := jor (mid.lookup "lAnkle") (jor (mid.lookup "leftAnkle")
      (jor (mid.lookup "lHeel") (mid.lookup "lBigToe")))
    match rA, lA with
    | some r, some l => if r.1 < l.1 then "R" else "L"
    | some _, none => "R"
    | none, _ => "L"

/-- Vertical (y) series of the lead ankle (lines 208-218). -/
def footY (frames : List VFrame) (handHint : String) : List ℚ :=
  fallbackSeries (frames.map (fun fr =>
    (ankleKey (leadSideOf frames handHint) fr.joints).map (fun p => p.2.1)))

/-- Local-minimum test of the candidate scan (line 246). -/
def localMinB (Y : List ℚ) (i : ℕ) : Bool :=
  decide (Y.getD i 0 ≤ Y.getD (i - 1) 0) &&
    decide (Y.getD i 0 ≤ Y.getD (i + 1) 0)

/-- Candidate score (lines 248-251). -/
def scoreAt (Y Vy Vh dYaw : List ℚ) (i : ℕ) : ℚ :=
  |Vy.getD i 0| * 4 + -(Vh.getD (i - 1) 0 - Vh.getD i 0) * 2 +
    dYaw.getD i 0 * (3 / 2) + Y.getD i 0 * (1 / 5)

/-- Interior candidate indices (`for i = 2; i < Y.length - 2`). -/
def footIdxs (n : ℕ) : List ℕ :=
  (List.range n).filter (fun i => 2 ≤ i ∧ i + 2 < n)

/-- One iteration of the candidate scan (lines 245-256); `none` stands for
the initial `bestScore = Infinity`. -/
def footStep (Y Vy Vh dYaw : List ℚ) (best : Option (ℕ × ℚ)) (i : ℕ) :
    Option (ℕ × ℚ) :=
  if localMinB Y i = true then
    match best with
    | none => some (i, scoreAt Y Vy Vh dYaw i)
    | some (bi, bs) =>
        if scoreAt Y Vy Vh dYaw i < bs then some (i, scoreAt Y Vy Vh dYaw i)
        else some (bi, bs)
  else best

/-- Candidate scan over the interior indices, returning the best index. -/
def footScan (Y Vy Vh dYaw : List ℚ) : Option ℕ :=
  ((footIdxs Y.length).foldl (footStep Y Vy Vh dYaw) none).map (fun p => p.1)

/-- Embeds `findFootStrike` (lines 189-258). -/
def findFootStrike (P : Prims) (frames : List VFrame) (handHint : String) :
    Option ℕ :=
  if frames.isEmpty then none
  else
    let lead := leadSideOf frames handHint
    let Y := footY frames handHint
    let X := fallbackSeries (frames.map (fun fr =>
      (ankleKey lead fr.joints).map (fun p => p.1)))
    let Z := fallbackSeries (frames.map (fun fr =>
      (ankleKey lead fr.joints).map (fun p => p.2.2)))
    let T := frames.map (fun fr => fr.time)
    let Vy := movingAvg (finiteDiff Y T) 3
    let Vh := movingAvg ((List.range X.length).map (fun i =>
      P.sqrtF ((X.getD i 0 - X.getD (i - 1) 0) * (X.getD i 0 - X.getD (i - 1) 0) +
        (Z.getD i 0 - Z.getD (i - 1) 0) * (Z.getD i 0 - Z.getD (i - 1) 0)) /
      max (1 / 1000000) (T.getD i 0 - T.getD (i - 1) 0))) 3
    let footYaw := fallbackSeries (frames.map (fun fr =>
      match ankleKey lead fr.joints, toeKey lead fr.joints with
      | some a, some toe =>
          let dir : V3 := (toe.1 - a.1, toe.2.1 - a.2.1, 0)
          let dir2 := if 1 / 10000000000 < vlensq dir then v3norm P dir else dir
          some (P.atan2F dir2.2.1 dir2.1)
      | _, _ => none))
    let dYaw := movingAvg ((finiteDiff footYaw T).map (fun v => |v|)) 5
    footScan Y Vy Vh dYaw

/-- Embeds `indexFromTime` (lines 178-186): nearest frame by absolute time
difference; `none` stands for the initial `bestErr = Infinity`. -/
def indexFromTime (frames : List VFrame) (t : Option ℚ) : Option ℕ :=
  match t with
  | none => none
  | some tSec =>
    if frames.isEmpty then none
    else
      some (((List.range frames.length).foldl (fun (acc : ℕ × Option ℚ) i =>
        let err := |(frames.getD i defFrame).time - tSec|
        match acc.2 with
        | none => (i, some err)
        | some be => if err < be then (i, some err) else acc) (0, none)).1)

/-- Throwing-side resolution of `findBallRelease` (lines 269-290): the hand
hint when resolved, else the same last-quarter wrist-displacement loop as
`detectHandedness`, with ties going to "L". -/
def throwSideOf (frames : List VFrame) (handHint : String) : String :=
  if handHint = "R" then "R"
  else if handHint = "L" then "L"
  else
    let acc := handAcc frames
    let rdx : ℚ := if acc.rc = 0 then 0 else acc.rx / (acc.rc : ℚ)
    let ldx : ℚ := if acc.lc = 0 then 0 else acc.lx / (acc.lc : ℚ)
    if rdx < ldx then "R" else "L"

/-- Forward (x) series of the throwing wrist (lines 293-306). -/
def wristXSeries (frames : List VFrame) (side : String) : List ℚ :=
  fallbackSeries (frames.map (fun fr =>
    (if side = "R" then
      jor (fr.joints.lookup "rWrist") (fr.joints.lookup "rightWrist")
    else
      jor (fr.joints.lookup "lWrist") (fr.joints.lookup "leftWrist")).map
        (fun p => p.1)))

/-- Elbow-extension angle series (lines 310-327). -/
def elbowAngSeries (P : Prims) (frames : List VFrame) (side : String) :
    List ℚ :=
  fallbackSeries (frames.map (fun fr =>
    let j := fr.joints
    let sh := if side = "R" then jor (j.lookup "rShoulder") (j.lookup "rightShoulder")
      else jor (j.lookup "lShoulder") (j.lookup "leftShoulder")
    let el := if side = "R" then jor (j.lookup "rElbow") (j.lookup "rightElbow")
      else jor (j.lookup "lElbow") (j.lookup "leftElbow")
    let wr := if side = "R" then jor (j.lookup "rWrist") (j.lookup "rightWrist")
      else jor (j.lookup "lWrist") (j.lookup "leftWrist")
    match sh, el, wr with
    | some s, some e, some w =>
        some (P.radToDegF (angleTo P (v3norm P (vsub s e)) (v3norm P (vsub w e))))
    | _, _, _ => none))

/-- Trunk yaw series (lines 331-343). -/
def trunkYawSeries (P : Prims) (frames : List VFrame) : List ℚ :=
  fallbackSeries (frames.map (fun fr =>
    match jor (fr.joints.lookup "lShoulder") (fr.joints.lookup "leftShoulder"),
        jor (fr.joints.lookup "rShoulder") (fr.joints.lookup "rightShoulder") with
    | some l, some r => some (yawDeg P HOME_BASE (vsub r l))
    | _, _ => none))

/-- Seed from the minimum forward wrist velocity (lines 345-351), starting
at index 0 with `minV = 1e9`. -/
def minVxIdx (Vx : List ℚ) : ℕ :=
  (((List.range Vx.length).filter (fun i => 1 ≤ i)).foldl
    (fun (acc : ℕ × ℚ) i =>
      if Vx.getD i 0 < acc.2 then (i, Vx.getD i 0) else acc)
    (0, 1000000000)).1

/-- Final scoring scan of `findBallRelease` (lines 353-361), over the
window `[max(1, seed-20), min(len-2, seed+20)]`, starting from the seed with
`bestScore = -Infinity` (modelled as `none`). -/
def releaseScan (Vx dElbow dTrunk : List ℚ) (seed : ℕ) : ℕ :=
  let lo := max 1 (seed - 20)
  let hi : ℤ := min ((Vx.length : ℤ) - 2) ((seed : ℤ) + 20)
  (((List.range Vx.length).filter (fun i => lo ≤ i ∧ (i : ℤ) ≤ hi)).foldl
    (fun (acc : ℕ × Option ℚ) i =>
      let score := -(Vx.getD i 0) + dElbow.getD i 0 * (4 / 5) +
        dTrunk.getD i 0 * (1 / 2)
      match acc.2 with
      | none => (i, some score)
      | some bs => if bs < score then (i, some score) else acc)
    (seed, none)).1

/-- Embeds `findBallRelease` (lines 261-362). -/
def findBallRelease (P : Prims) (frames : List VFrame) (handHint : String)
    (jsonReleaseSec : Option ℚ) : Option ℕ :=
  if frames.isEmpty then none
  else
    let seed0 := indexFromTime frames jsonReleaseSec
    let side := throwSideOf frames handHint
    let X := wristXSeries frames side
    let T := frames.map (fun fr => fr.time)
    let Vx := movingAvg (finiteDiff X T) 3
    let dElbow := movingAvg (finiteDiff (elbowAngSeries P frames side) T) 3
    let dTrunk := movingAvg ((finiteDiff (trunkYawSeries P frames) T).map
      (fun v => |v|)) 3
    let seed := match seed0 with | some s => s | none => minVxIdx Vx
    some (releaseScan Vx dElbow dTrunk seed)

lemma footStep_isSome (Y Vy Vh dYaw : List ℚ) (p : ℕ × ℚ) (i : ℕ) :
    ∃ q, footStep Y Vy Vh dYaw (some p) i = some q := by
  obtain ⟨bi, bs⟩ := p
  unfold footStep
  by_cases h : localMinB Y i = true
  · rw [if_pos h]
    dsimp only
    by_cases h2 : scoreAt Y Vy Vh dYaw i < bs
    · rw [if_pos h2]; exact ⟨_, rfl⟩
    · rw [if_neg h2]; exact ⟨_, rfl⟩
  · rw [if_neg h]; exact ⟨_, rfl⟩

lemma footFoldSome (Y Vy Vh dYaw : List ℚ) (l : List ℕ) : ∀ p : ℕ × ℚ,
    ∃ q, l.foldl (footStep Y Vy Vh dYaw) (some p) = some q := by
  induction l with
  | nil => intro p; exact ⟨p, rfl⟩
  | cons i tl ih =>
    intro p
    rw [List.foldl_cons]
    obtain ⟨q, hq⟩ := footStep_isSome Y Vy Vh dYaw p i
    rw [hq]
    exact ih q

lemma footFoldNone (Y Vy Vh dYaw : List ℚ) (l : List ℕ) :
    l.foldl (footStep Y Vy Vh dYaw) none = none ↔
      ∀ i ∈ l, localMinB Y i = false := by
  induction l with
  | nil => simp
  | cons i tl ih =>
    rw [List.foldl_cons]
    by_cases h : localMinB Y i = true
    · have hstep : footStep Y Vy Vh dYaw none i =
          some (i, scoreAt Y Vy Vh dYaw i) := by
        unfold footStep
        rw [if_pos h]
      rw [hstep]
      obtain ⟨q, hq⟩ := footFoldSome Y Vy Vh dYaw tl (i, scoreAt Y Vy Vh dYaw i)
      rw [hq]
      constructor
      · intro habs
        exact absurd habs (by simp)
      · intro hall
        have hfalse := hall i (by simp)
        rw [h] at hfalse
        exact absurd hfalse (by simp)
    · have hb : localMinB Y i = false := by
        cases hh : localMinB Y i
        · rfl
        · exact absurd hh h
      have hstep : footStep Y Vy Vh dYaw none i = none := by
        unfold footStep
        rw [if_neg h]
      rw [hstep, ih]
      constructor
      · intro hall j hj
        rcases List.mem_cons.mp hj with hj0 | hjtl
        · rw [hj0]; exact hb
        · exact hall j hjtl
      · intro hall j hj
        exact hall j (List.mem_cons_of_mem i hj)

lemma footScan_eq_none (Y Vy Vh dYaw : List ℚ) :
    footScan Y Vy Vh dYaw = none ↔
      ∀ i ∈ footIdxs Y.length, localMinB Y i = false := by
  unfold footScan
  rw [Option.map_eq_none']
  exact footFoldNone Y Vy Vh dYaw (footIdxs Y.length)

lemma fallbackAux_length (last : ℚ) (xs : List (Option ℚ)) :
    (fallbackAux last xs).length = xs.length := by
  induction xs generalizing last with
  | nil => rfl
  | cons hd tl ih =>
    cases hd <;> simp [fallbackAux, ih]

lemma footY_length (frames : List VFrame) (hand : String) :
    (footY frames hand).length = frames.length := by
  unfold footY fallbackSeries
  rw [fallbackAux_length, List.length_map]

lemma mem_footIdxs {n i : ℕ} : i ∈ footIdxs n ↔ 2 ≤ i ∧ i + 2 < n := by
  unfold footIdxs
  rw [List.mem_filter, List.mem_range]
  constructor
  · intro h
    simpa using h.2
  · intro h
    exact ⟨by omega, by simpa using h⟩

/-- Claim C2, amended: both detectors are pure functions (deterministic by
construction), and `findBallRelease` returns `undefined` exactly on an empty
frame list; but `findFootStrike` returns `undefined` exactly when the frame
list is empty OR no interior index (2 ≤ i < n-2) is a local minimum of the
lead-ankle vertical series — in particular it can return `undefined` on
non-empty input (e.g. any list of fewer than five frames). -/
theorem event_detection_undefined_amended :
    (∀ (P : Prims) (frames : List VFrame) (hand : String) (rel : Option ℚ),
      (findBallRelease P frames hand rel = none ↔ frames = [])) ∧
    (∀ (P : Prims) (frames : List VFrame) (hand : String),
      (findFootStrike P frames hand = none ↔
        (frames = [] ∨ ∀ i, 2 ≤ i → i + 2 < frames.length →
          localMinB (footY frames hand) i = false))) := by
  constructor
  · intro P frames hand rel
    unfold findBallRelease
    cases frames with
    | nil => simp
    | cons a l => simp
  · intro P frames hand
    unfold findFootStrike
    by_cases he : frames.isEmpty = true
    · have hnil : frames = [] := List.isEmpty_iff.mp he
      subst hnil
      simp
    · rw [if_neg he]
      dsimp only
      rw [footScan_eq_none]
      have hne : frames ≠ [] := by
        intro h
        rw [h] at he
        exact he rfl
      constructor
      · intro hall
        right
        intro i h2 hlt
        exact hall i (mem_footIdxs.mpr ⟨h2, by rw [footY_length]; exact hlt⟩)
      · intro hor
        rcases hor with h | hall
        · exact absurd h hne
        · intro i hi
          obtain ⟨h2, hlt⟩ := mem_footIdxs.mp hi
          rw [footY_length] at hlt
          exact hall i h2 hlt

/-- Counterexample to claim C2 as stated: a single-frame (hence non-empty)
track has no interior local minimum, and `findFootStrike` returns
`undefined` (the candidate loop `for i = 2; i < Y.length - 2` never runs). -/
theorem footstrike_nonempty_none_counterexample :
    findFootStrike prims0 [defFrame] "?" = none ∧
    ([defFrame] : List VFrame) ≠ [] := by
  constructor
  · rfl
  · simp

/-- Witness for the amended C2: the release detector returns `undefined` on
the empty track. -/
theorem event_detection_undefined_amended_witness :
    findBallRelease prims0 [] "?" none = none :=
  (event_detection_undefined_amended.1 prims0 [] "?" none).mpr rfl

end BB3D